import Mathlib

/-!
Verification of the monty serialization dispatcher
(`src/monty/serialization.py`): the format identifier `_identify_format`
and the two public operations `loadfn` and `dumpfn` are shallowly embedded
below, together with an event-trace model of their file-handle side
effects.  Third-party codec libraries (`json`, `ruamel.yaml`, `msgpack`)
are collaborators: they appear as an abstract `Codecs` record of
encode/decode functions.  Repository modules that are collaborators of
this file (`monty.io.zopen`, `monty.json`, `monty.msgpack`) are modelled
from the spec where noted.
-/

namespace Monty

/-- Decoded values: the plain data representable by the codecs
(strings, numbers, sequences, mappings). -/
inductive Value where
  | str (s : String)
  | nat (n : Nat)
  | list (elts : List Value)
  | dict (kvs : List (String × Value))

/-- Modelled from the spec: the Object Codec collaborator surface
(`monty.json.MontyDecoder` / `MontyEncoder`) and the binary-map hooks
(`monty.msgpack.object_hook` / `default`) are not under `src/`; here they
are opaque hook values, distinguishable from any caller-supplied hook. -/
inductive Hook where
  | montyDecoder
  | montyEncoder
  | msgpackObjectHook
  | msgpackDefault
  | noneHook
  | custom (id : Nat)
deriving DecidableEq, Repr

/-- Keyword passthrough options: a finite map from option names to hook
values, looked up by name as Python `kwargs` are. -/
abbrev Kwargs := List (String × Hook)

/-- Embedding of the Python idiom
`if key not in kwargs: kwargs[key] = dflt`. -/
def injectDefault (kwargs : Kwargs) (key : String) (dflt : Hook) : Kwargs :=
  if (kwargs.lookup key).isSome then kwargs else (key, dflt) :: kwargs

/-- Lower-case every character, as Python `str.lower` does for ASCII names. -/
def lowerStr (s : String) : String := String.mk (s.data.map Char.toLower)

/-- Embedding of `os.path.basename`: the part of the path after the last
separator. -/
def basename (s : String) : String :=
  String.mk ((s.data.reverse.takeWhile fun c => c ≠ '/').reverse)

/-- Whether `needle` occurs at the head of `haystack`. -/
def leadsWith : List Char → List Char → Bool
  | [], _ => true
  | _ :: _, [] => false
  | p :: ps, c :: cs => p = c && leadsWith ps cs

/-- Whether `needle` occurs anywhere inside `haystack`. -/
def hasSub (needle : List Char) : List Char → Bool
  | [] => needle.isEmpty
  | c :: cs => leadsWith needle (c :: cs) || hasSub needle cs

/-- Embedding of the Python substring test `sub in s`. -/
def containsSub (s sub : String) : Bool := hasSub sub.toList s.toList

/-- Embedding of `_identify_format` from `serialization.py`. -/
def identify_format (file_name : String) : String :=
  let bn := lowerStr (basename file_name)
  if containsSub bn ".mpk" then "mpk"
  else if containsSub bn ".yaml" || containsSub bn ".yml" then "yaml"
  else if containsSub bn "jsonl" then "jsonl"
  else "json"

/-- Embedding of `fmt = fmt or _identify_format(fn)`: Python `or` treats
`None` and the empty string as falsy. -/
def resolveFmt (fmt : Option String) (fn : String) : String :=
  match fmt with
  | none => identify_format fn
  | some s => if s = "" then identify_format fn else s

/-- Runtime availability of the optional backend libraries.  `msgpack` is
imported inside try/except, so `msgpack is None` is reachable.  The code
text also guards `YAML is None`, modelled by the second flag — but the
YAML import is unconditional, so in every state in which the operations
can execute the flag is true (see `Env.reachable`); the guard is
embedded only because the code contains it. -/
structure Env where
  msgpackAvailable : Bool
  yamlAvailable : Bool

/-- States in which `loadfn`/`dumpfn` can actually execute: the source
imports the YAML backend unconditionally at module load
(`from ruamel.yaml import YAML`), so a missing ruamel.yaml prevents the
module from importing at all and the `YAML is None` guards are dead
code — every reachable state has the YAML backend available. -/
def Env.reachable (env : Env) : Prop := env.yamlAvailable = true

/-- The third-party codec libraries, abstract: each receives the keyword
options the dispatcher forwards and the value or text to convert.
Decoders return `none` on malformed content. -/
structure Codecs where
  jsonDumps : Kwargs → Value → String
  jsonLoads : Kwargs → String → Option Value
  yamlDump : Kwargs → Value → String
  yamlLoad : Kwargs → String → Option Value
  mpkDump : Kwargs → Value → String
  mpkLoad : Kwargs → String → Option Value

/-- File-open modes used by the dispatcher. -/
inductive Mode where
  | rb
  | rt
  | wb
  | wt
deriving DecidableEq, Repr

/-- Observable I/O events of one call: opening a file handle, one write
call on the handle, closing the handle. -/
inductive Event where
  | openFile (path : String) (mode : Mode)
  | writeCall (data : String)
  | closeFile (path : String)
deriving DecidableEq, Repr

/-- Errors a call can raise: `RuntimeError` (unavailable codec),
`TypeError` (invalid format, or iterating a non-iterable), the codecs'
native parse errors, and the filesystem's missing-file error. -/
inductive Err where
  | runtimeError (msg : String)
  | typeError (msg : String)
  | jsonDecodeError
  | yamlDecodeError
  | mpkDecodeError
  | fileNotFoundError
deriving DecidableEq, Repr

/-- Modelled from the spec: the Stream Provider (`monty.io.zopen`, not
under `src/`) transparently compresses and decompresses by suffix and
presents a uniform stream, so the filesystem is a map from path to the
uncompressed content; reading a missing path fails, writing creates or
truncates. -/
abbrev FS := List (String × String)

/-- Content visible when reading `p`, `none` when the file is missing. -/
def FS.read (fs : FS) (p : String) : Option String := fs.lookup p

/-- Filesystem after the content of `p` is replaced by `data`. -/
def FS.put (fs : FS) (p : String) (data : String) : FS := (p, data) :: fs

/-- Python iteration over the dumped value in JSON-Lines mode
(`for jobj in obj`): lists yield elements, mappings yield their keys,
strings yield one-character strings, numbers are not iterable. -/
def pyIter : Value → Except Err (List Value)
  | .list vs => .ok vs
  | .dict kvs => .ok (kvs.map fun kv => Value.str kv.1)
  | .str s => .ok (s.toList.map fun ch => Value.str (String.mk [ch]))
  | .nat _ => .error (.typeError "object is not iterable")

/-- Split a character list at every newline; never returns `[]`. -/
def splitNl : List Char → List (List Char)
  | [] => [[]]
  | c :: rest =>
    if c = '\n' then [] :: splitNl rest
    else
      match splitNl rest with
      | [] => [[c]]
      | g :: gs => (c :: g) :: gs

/-- Turn the chunks produced by `splitNl` into Python file-iterator
lines: every line but possibly the last keeps its terminating newline,
and a trailing newline does not produce an extra empty line. -/
def pyLinesAux : List (List Char) → List (List Char)
  | [] => []
  | [last] => if last = [] then [] else [last]
  | c :: rest => (c ++ ['\n']) :: pyLinesAux rest

/-- Lines yielded by iterating a text file handle in Python. -/
def pyLines (s : String) : List String :=
  (pyLinesAux (splitNl s.data)).map String.mk

/-- Concatenation of the successive write calls made on one handle. -/
def joinAll : List String → String
  | [] => ""
  | s :: rest => s ++ joinAll rest

/-- Embedding of the jsonl list comprehension
`[json.loads(jline, ...) for jline in fp]`: decode every line in order,
the first failure propagating. -/
def mapDecode (f : String → Option Value) : List String → Option (List Value)
  | [] => some []
  | l :: ls =>
    match f l with
    | none => none
    | some v =>
      match mapDecode f ls with
      | none => none
      | some vs => some (v :: vs)

/-- The message of the `RuntimeError` both operations raise when msgpack
is missing. -/
def mpkUnavailableMsg : String :=
  "Loading of message pack files is not possible as msgpack-python is not installed."

/-- The message of the `RuntimeError` both operations raise when the
YAML backend is missing. -/
def yamlUnavailableMsg : String := "Loading of YAML files requires ruamel.yaml."

/-- Embedding of `loadfn`.  Returns the I/O event trace of the call and
its outcome. -/
def loadfn (env : Env) (c : Codecs) (fs : FS) (fn : String)
    (fmt : Option String) (kwargs : Kwargs) :
    List Event × Except Err Value :=
  let fmt := resolveFmt fmt fn
  if fmt = "mpk" then
    if !env.msgpackAvailable then
      ([], .error (.runtimeError mpkUnavailableMsg))
    else
      let kwargs := injectDefault kwargs "object_hook" Hook.msgpackObjectHook
      match fs.read fn with
      | none => ([], .error .fileNotFoundError)
      | some content =>
        match c.mpkLoad kwargs content with
        | some v => ([.openFile fn .rb, .closeFile fn], .ok v)
        | none => ([.openFile fn .rb, .closeFile fn], .error .mpkDecodeError)
  else
    match fs.read fn with
    | none => ([], .error .fileNotFoundError)
    | some content =>
      if fmt = "yaml" then
        if !env.yamlAvailable then
          ([.openFile fn .rt, .closeFile fn],
           .error (.runtimeError yamlUnavailableMsg))
        else
          match c.yamlLoad kwargs content with
          | some v => ([.openFile fn .rt, .closeFile fn], .ok v)
          | none => ([.openFile fn .rt, .closeFile fn], .error .yamlDecodeError)
      else if fmt = "json" || fmt = "jsonl" then
        let kwargs := injectDefault kwargs "cls" Hook.montyDecoder
        if fmt = "jsonl" then
          match mapDecode (c.jsonLoads kwargs) (pyLines content) with
          | some vs => ([.openFile fn .rt, .closeFile fn], .ok (.list vs))
          | none => ([.openFile fn .rt, .closeFile fn], .error .jsonDecodeError)
        else
          match c.jsonLoads kwargs content with
          | some v => ([.openFile fn .rt, .closeFile fn], .ok v)
          | none => ([.openFile fn .rt, .closeFile fn], .error .jsonDecodeError)
      else
        ([.openFile fn .rt, .closeFile fn],
         .error (.typeError ("Invalid format: " ++ fmt)))

/-- Embedding of `dumpfn`.  Returns the event trace, the outcome, and the
filesystem after the call (write mode creates or truncates the target as
soon as the handle opens, so even a failing call leaves the content
written before the failure). -/
def dumpfn (env : Env) (c : Codecs) (fs : FS) (obj : Value) (fn : String)
    (fmt : Option String) (kwargs : Kwargs) :
    List Event × Except Err Unit × FS :=
  let fmt := resolveFmt fmt fn
  if fmt = "mpk" then
    if !env.msgpackAvailable then
      ([], .error (.runtimeError mpkUnavailableMsg), fs)
    else
      let kwargs := injectDefault kwargs "default" Hook.msgpackDefault
      let data := c.mpkDump kwargs obj
      ([.openFile fn .wb, .writeCall data, .closeFile fn], .ok (), fs.put fn data)
  else
    if fmt = "yaml" then
      if !env.yamlAvailable then
        ([.openFile fn .wt, .closeFile fn],
         .error (.runtimeError yamlUnavailableMsg),
         fs.put fn "")
      else
        let data := c.yamlDump kwargs obj
        ([.openFile fn .wt, .writeCall data, .closeFile fn], .ok (), fs.put fn data)
    else if fmt = "json" || fmt = "jsonl" then
      let kwargs := injectDefault kwargs "cls" Hook.montyEncoder
      if fmt = "jsonl" then
        match pyIter obj with
        | .error e => ([.openFile fn .wt, .closeFile fn], .error e, fs.put fn "")
        | .ok entries =>
          let writes := entries.map fun x => c.jsonDumps kwargs x ++ "\n"
          ([.openFile fn .wt] ++ writes.map Event.writeCall ++ [.closeFile fn],
           .ok (), fs.put fn (joinAll writes))
      else
        let data := c.jsonDumps kwargs obj
        ([.openFile fn .wt, .writeCall data, .closeFile fn], .ok (), fs.put fn data)
    else
      ([.openFile fn .wt, .closeFile fn],
       .error (.typeError ("Invalid format: " ++ fmt)), fs.put fn "")

/-! Spec-side format identifier, for the refinement claim C3. -/

/-- The recognized format tags of the spec's data model. -/
inductive FormatTag where
  | json
  | jsonl
  | yaml
  | binaryMap
deriving DecidableEq, Repr

/-- The string the code uses for each spec-level tag. -/
def tagStr : FormatTag → String
  | .json => "json"
  | .jsonl => "jsonl"
  | .yaml => "yaml"
  | .binaryMap => "mpk"

/-- Modelled from the spec, for comparison with `identify_format`: the
Format Identifier as section 4.1 words it — a case-insensitive substring
match against the final path component only, binary-map before yaml
before jsonl, anything else falling through to json. -/
def formatIdentifierSpec (file_name : String) : FormatTag :=
  let bn := lowerStr (basename file_name)
  if containsSub bn ".mpk" then .binaryMap
  else if containsSub bn ".yaml" then .yaml
  else if containsSub bn ".yml" then .yaml
  else if containsSub bn "jsonl" then .jsonl
  else .json

/-! Concrete fixtures used by witnesses and counterexamples. -/

/-- The plain mapping used throughout the repository's tests. -/
def d0 : Value := .dict [("hello", .str "world")]

/-- A short code for the handful of concrete values the witnesses use. -/
def vcode : Value → String
  | .dict [("hello", .str "world")] => "D0"
  | .nat n => "N" ++ toString n
  | _ => "X"

/-- A concrete codec record: encoders tag the value's code, decoders
invert exactly the encodings the witnesses exercise and reject
everything else (in particular each codec rejects the others' output). -/
def toyCodecs : Codecs where
  jsonDumps := fun _ v => "JP" ++ vcode v
  jsonLoads := fun _ s =>
    if s = "JPD0" then some d0
    else if s = "JPN0\n" then some (.nat 0)
    else if s = "JPN1\n" then some (.nat 1)
    else none
  yamlDump := fun _ v => "YP" ++ vcode v
  yamlLoad := fun _ s => if s = "YPD0" then some d0 else none
  mpkDump := fun _ v => "MP" ++ vcode v
  mpkLoad := fun _ s => if s = "MPD0" then some d0 else none

/-- An environment with both optional backends present. -/
def env0 : Env := ⟨true, true⟩

/-- An environment whose msgpack backend is unavailable. -/
def envNoMpk : Env := ⟨false, true⟩

/-! Helper lemmas. -/

theorem resolveFmt_some (s fn : String) (h : ¬s = "") :
    resolveFmt (some s) fn = s := by
  simp [resolveFmt, h]

theorem FS.read_put (fs : FS) (p data : String) :
    (fs.put p data).read p = some data := by
  simp [FS.read, FS.put, List.lookup]

theorem mapDecode_spec (f : String → Option Value) :
    ∀ (xs : List String) (ys : List Value), mapDecode f xs = some ys →
      ys.length = xs.length ∧
      ∀ i (hx : i < xs.length) (hy : i < ys.length),
        f (xs.get ⟨i, hx⟩) = some (ys.get ⟨i, hy⟩) := by
  intro xs
  induction xs with
  | nil =>
    intro ys h
    simp only [mapDecode, Option.some.injEq] at h
    subst h
    exact ⟨rfl, fun i hx => absurd hx (Nat.not_lt_zero i)⟩
  | cons x xs ih =>
    intro ys h
    simp only [mapDecode] at h
    cases hx : f x with
    | none => rw [hx] at h; simp at h
    | some v =>
      rw [hx] at h
      cases hxs : mapDecode f xs with
      | none => rw [hxs] at h; simp at h
      | some vs =>
        rw [hxs] at h
        simp only [Option.some.injEq] at h
        subst h
        obtain ⟨hlen, hget⟩ := ih vs hxs
        refine ⟨by simp [hlen], ?_⟩
        intro i hix hiy
        cases i with
        | zero => simpa using hx
        | succ j =>
          simpa using hget j (Nat.lt_of_succ_lt_succ hix) (Nat.lt_of_succ_lt_succ hiy)

theorem splitNl_ne_nil : ∀ cs : List Char, splitNl cs ≠ [] := by
  intro cs
  cases cs with
  | nil => simp [splitNl]
  | cons c rest =>
    simp only [splitNl]
    by_cases h : c = '\n'
    · simp [h]
    · simp only [h, if_false]
      cases splitNl rest <;> simp

theorem splitNl_chunk :
    ∀ (xs : List Char), '\n' ∉ xs → ∀ rest : List Char,
      splitNl (xs ++ '\n' :: rest) = xs :: splitNl rest := by
  intro xs
  induction xs with
  | nil => intro _ rest; simp [splitNl]
  | cons c xs ih =>
    intro hmem rest
    have hc : ¬c = '\n' := fun h => hmem (h ▸ List.mem_cons_self c xs)
    have hxs : '\n' ∉ xs := fun h => hmem (List.mem_cons_of_mem c h)
    simp only [List.cons_append, splitNl, hc, if_false, List.append_eq]
    rw [ih hxs rest]

theorem pyLinesAux_chunks :
    ∀ (xss : List (List Char)), (∀ xs ∈ xss, '\n' ∉ xs) →
      pyLinesAux (splitNl ((xss.map fun xs => xs ++ ['\n']).flatten)) =
        xss.map fun xs => xs ++ ['\n'] := by
  intro xss
  induction xss with
  | nil => intro _; simp [splitNl, pyLinesAux]
  | cons xs xss ih =>
    intro hmem
    have hx : '\n' ∉ xs := hmem xs (List.mem_cons_self xs xss)
    have hrest : ∀ ys ∈ xss, '\n' ∉ ys := fun ys hy => hmem ys (List.mem_cons_of_mem xs hy)
    simp only [List.map_cons, List.flatten_cons]
    rw [List.append_assoc, List.singleton_append, splitNl_chunk xs hx]
    cases hsp : splitNl ((xss.map fun ys => ys ++ ['\n']).flatten) with
    | nil => exact absurd hsp (splitNl_ne_nil _)
    | cons g gs =>
      have := ih hrest
      rw [hsp] at this
      simp only [pyLinesAux, this, List.map_cons]

theorem joinAll_data :
    ∀ l : List String, (joinAll l).data = ((l.map String.data).flatten) := by
  intro l
  induction l with
  | nil => rfl
  | cons s rest ih => simp [joinAll, String.data_append, ih]

theorem string_mk_data (s : String) : String.mk s.data = s := rfl

theorem pyLines_joinAll (ss : List String) (h : ∀ s ∈ ss, '\n' ∉ s.data) :
    pyLines (joinAll (ss.map fun s => s ++ "\n")) = ss.map fun s => s ++ "\n" := by
  have hdata : (ss.map fun s => s ++ "\n").map String.data =
      (ss.map String.data).map fun xs => xs ++ ['\n'] := by
    simp only [List.map_map]
    apply List.map_congr_left
    intro s _
    show (s ++ "\n").data = s.data ++ ['\n']
    rw [String.data_append]
  have hmem : ∀ xs ∈ ss.map String.data, '\n' ∉ xs := by
    intro xs hxs
    obtain ⟨s, hs, rfl⟩ := List.mem_map.mp hxs
    exact h s hs
  simp only [pyLines, joinAll_data, hdata, pyLinesAux_chunks (ss.map String.data) hmem]
  simp only [List.map_map]
  apply List.map_congr_left
  intro s _
  show String.mk (s.data ++ ['\n']) = s ++ "\n"
  rw [show s.data ++ ['\n'] = (s ++ "\n").data from (String.data_append s "\n").symm]

/-- Whether an event is the opening of a handle. -/
def isOpenEv : Event → Bool
  | .openFile _ _ => true
  | _ => false

/-- Whether an event is the closing of a handle. -/
def isCloseEv : Event → Bool
  | .closeFile _ => true
  | _ => false

/-- Number of handle-open events in a trace. -/
def opens (t : List Event) : Nat := t.countP isOpenEv

/-- Number of handle-close events in a trace. -/
def closes (t : List Event) : Nat := t.countP isCloseEv

theorem countP_writeCalls (p : Event → Bool) (hp : ∀ s, p (.writeCall s) = false) :
    ∀ l : List String, (l.map Event.writeCall).countP p = 0 := by
  intro l
  induction l with
  | nil => simp
  | cons s l ih => simp [List.countP_cons, hp, ih]

theorem countP_comp_writeCall (p : Event → Bool) (g : Value → String)
    (hp : ∀ s, p (.writeCall s) = false) :
    ∀ l : List Value, l.countP (p ∘ Event.writeCall ∘ g) = 0 := by
  intro l
  induction l with
  | nil => simp
  | cons v l ih => simp [List.countP_cons, Function.comp, hp, ih]

/-- An error is the dispatcher's invalid-format error when its message
carries the "Invalid format: " marker. -/
def isInvalidFormatError : Err → Bool
  | .typeError m => leadsWith "Invalid format: ".data m.data
  | _ => false

theorem pyIter_error (obj : Value) (e : Err) (h : pyIter obj = .error e) :
    e = .typeError "object is not iterable" := by
  cases obj <;> simp_all [pyIter]

theorem loadfn_yaml_runtime_reachable (env : Env) (c : Codecs) (fs : FS)
    (fn : String) (fmt : Option String) (kwargs : Kwargs)
    (hy : env.yamlAvailable = true)
    (h : (loadfn env c fs fn fmt kwargs).2 =
      .error (.runtimeError yamlUnavailableMsg)) : False := by
  simp only [loadfn] at h
  repeat' split at h
  all_goals simp_all [mpkUnavailableMsg, yamlUnavailableMsg]

theorem dumpfn_yaml_runtime_reachable (env : Env) (c : Codecs) (fs : FS)
    (obj : Value) (fn : String) (fmt : Option String) (kwargs : Kwargs)
    (hy : env.yamlAvailable = true)
    (h : (dumpfn env c fs obj fn fmt kwargs).2.1 =
      .error (.runtimeError yamlUnavailableMsg)) : False := by
  by_cases h1 : resolveFmt fmt fn = "mpk"
  · simp only [dumpfn, h1] at h
    cases hA : env.msgpackAvailable <;>
      simp [hA, mpkUnavailableMsg, yamlUnavailableMsg] at h
  by_cases h2 : resolveFmt fmt fn = "yaml"
  · simp only [dumpfn, h1, h2] at h
    simp [hy] at h
  by_cases h3 : resolveFmt fmt fn = "json"
  · simp [dumpfn, h1, h2, h3] at h
  by_cases h4 : resolveFmt fmt fn = "jsonl"
  · simp only [dumpfn, h1, h2, h4] at h
    simp at h
    cases hp : pyIter obj with
    | ok entries => rw [hp] at h; simp at h
    | error e =>
      rw [hp] at h
      simp at h
      have := pyIter_error obj e hp
      rw [this] at h
      simp at h
  · simp [dumpfn, h1, h2, h3, h4] at h

theorem identify_format_cases (fn : String) :
    identify_format fn = "mpk" ∨ identify_format fn = "yaml" ∨
      identify_format fn = "jsonl" ∨ identify_format fn = "json" := by
  simp only [identify_format]
  cases hm : containsSub (lowerStr (basename fn)) ".mpk" <;>
    cases hya : containsSub (lowerStr (basename fn)) ".yaml" <;>
      cases hyl : containsSub (lowerStr (basename fn)) ".yml" <;>
        cases hj : containsSub (lowerStr (basename fn)) "jsonl" <;>
          simp [hm, hya, hyl, hj]

/-! Claims. -/

/-- Claim C3: the format identifier is a total pure function agreeing
with the spec's case-insensitive basename-only substring match (binary
map before yaml before jsonl, defaulting to json), its result is always
in the recognized set, and two paths with the same final path component
resolve to the same tag. -/
theorem c3_format_identifier (fn : String) :
    identify_format fn = tagStr (formatIdentifierSpec fn) ∧
    (identify_format fn = "mpk" ∨ identify_format fn = "yaml" ∨
      identify_format fn = "jsonl" ∨ identify_format fn = "json") ∧
    (∀ g : String, basename g = basename fn →
      identify_format g = identify_format fn) := by
  refine ⟨?_, ?_, ?_⟩
  · simp only [identify_format, formatIdentifierSpec]
    cases hm : containsSub (lowerStr (basename fn)) ".mpk" <;>
      cases hya : containsSub (lowerStr (basename fn)) ".yaml" <;>
        cases hyl : containsSub (lowerStr (basename fn)) ".yml" <;>
          cases hj : containsSub (lowerStr (basename fn)) "jsonl" <;>
            simp [hm, hya, hyl, hj, tagStr]
  · exact identify_format_cases fn
  · intro g hg
    simp only [identify_format, hg]

/-- Witness for C3: a directory segment containing ".yaml" does not
change the tag resolved for the json file it holds. -/
theorem c3_format_identifier_witness :
    basename "thing.yaml/file.json" = basename "file.json" ∧
    identify_format "thing.yaml/file.json" = identify_format "file.json" :=
  ⟨by decide,
   (c3_format_identifier "file.json").2.2 "thing.yaml/file.json" (by decide)⟩

/-- Claim C9: every call opens at most one file handle, and every trace
closes exactly as many handles as it opened — on every exit path,
including decode and encode failures. -/
theorem c9_single_handle (env : Env) (c : Codecs) (fs : FS) (obj : Value)
    (fn : String) (fmt : Option String) (kwargs : Kwargs) :
    (opens (loadfn env c fs fn fmt kwargs).1 ≤ 1 ∧
      closes (loadfn env c fs fn fmt kwargs).1 =
        opens (loadfn env c fs fn fmt kwargs).1) ∧
    (opens (dumpfn env c fs obj fn fmt kwargs).1 ≤ 1 ∧
      closes (dumpfn env c fs obj fn fmt kwargs).1 =
        opens (dumpfn env c fs obj fn fmt kwargs).1) := by
  constructor
  · simp only [loadfn]
    repeat' split
    all_goals
      simp [opens, closes, isOpenEv, isCloseEv, List.countP_cons, List.countP_nil]
  · simp only [dumpfn]
    repeat' split
    all_goals
      simp [opens, closes, isOpenEv, isCloseEv, List.countP_cons, List.countP_nil,
        List.countP_append, countP_writeCalls, countP_comp_writeCall]

/-- Claim C1 counterexample: with format "garbage", dump raises the
invalid-format TypeError only after opening the target for writing — the
trace contains the open event and "x.txt" has been created empty — and
load likewise opens the (existing) file before raising. -/
theorem c1_counterexample :
    (dumpfn env0 toyCodecs [] d0 "x.txt" (some "garbage") []).2.1 =
      .error (.typeError "Invalid format: garbage") ∧
    Event.openFile "x.txt" Mode.wt ∈
      (dumpfn env0 toyCodecs [] d0 "x.txt" (some "garbage") []).1 ∧
    ((dumpfn env0 toyCodecs [] d0 "x.txt" (some "garbage") []).2.2).read "x.txt" =
      some "" ∧
    (loadfn env0 toyCodecs [("x.txt", "hello")] "x.txt" (some "garbage") []).1 =
      [Event.openFile "x.txt" Mode.rt, Event.closeFile "x.txt"] :=
  ⟨rfl, by decide, rfl, rfl⟩

/-- Claim C1 (amended): with a resolved format tag outside the
recognized set, load and dump both fail with the invalid-format
TypeError, but only after the target file has been opened: load opens it
for text reading (and raises the filesystem's missing-file error instead
when it does not exist), and dump opens it for text writing, creating or
truncating it, before raising. -/
theorem c1_invalid_format (env : Env) (c : Codecs) (fs : FS) (obj : Value)
    (fn s : String) (fmt : Option String) (kwargs : Kwargs)
    (hres : resolveFmt fmt fn = s)
    (h1 : ¬s = "mpk") (h2 : ¬s = "yaml") (h3 : ¬s = "json") (h4 : ¬s = "jsonl") :
    dumpfn env c fs obj fn fmt kwargs =
      ([.openFile fn .wt, .closeFile fn],
       .error (.typeError ("Invalid format: " ++ s)), fs.put fn "") ∧
    (∀ content, fs.read fn = some content →
      loadfn env c fs fn fmt kwargs =
        ([.openFile fn .rt, .closeFile fn],
         .error (.typeError ("Invalid format: " ++ s)))) ∧
    (fs.read fn = none →
      loadfn env c fs fn fmt kwargs = ([], .error .fileNotFoundError)) := by
  refine ⟨?_, ?_, ?_⟩
  · simp [dumpfn, hres, h1, h2, h3, h4]
  · intro content hc
    simp [loadfn, hres, h1, h2, h3, h4, hc]
  · intro hc
    simp [loadfn, hres, h1, h2, h3, h4, hc]

/-- Witness for C1 at format "garbage" and path "x.txt". -/
theorem c1_invalid_format_witness :
    dumpfn env0 toyCodecs [] d0 "x.txt" (some "garbage") [] =
      ([.openFile "x.txt" .wt, .closeFile "x.txt"],
       .error (.typeError ("Invalid format: " ++ "garbage")),
       FS.put [] "x.txt" "") :=
  (c1_invalid_format env0 toyCodecs [] d0 "x.txt" "garbage" (some "garbage") []
    (by decide) (by decide) (by decide) (by decide) (by decide)).1

/-- Claim C4: when a call resolves to binary-map while msgpack is
unavailable, both operations fail with the unavailable-codec
RuntimeError immediately — with an empty trace, before any file is
opened.  For yaml the claim holds vacuously: the source imports the
YAML backend unconditionally at module load, so every state in which
the operations can execute is `Env.reachable`, and in every reachable
state no call can produce the yaml unavailable-codec error at all. -/
theorem c4_unavailable_codec (env : Env) (c : Codecs) (fs : FS) (obj : Value)
    (fn : String) (kwargs : Kwargs) :
    (∀ fmt : Option String, resolveFmt fmt fn = "mpk" →
      env.msgpackAvailable = false →
      loadfn env c fs fn fmt kwargs = ([], .error (.runtimeError mpkUnavailableMsg)) ∧
      dumpfn env c fs obj fn fmt kwargs =
        ([], .error (.runtimeError mpkUnavailableMsg), fs)) ∧
    (env.reachable →
      (∀ fmt : Option String,
        ¬(loadfn env c fs fn fmt kwargs).2 =
          .error (.runtimeError yamlUnavailableMsg)) ∧
      (∀ fmt : Option String,
        ¬(dumpfn env c fs obj fn fmt kwargs).2.1 =
          .error (.runtimeError yamlUnavailableMsg))) := by
  constructor
  · intro fmt hres hm
    constructor
    · simp [loadfn, hres, hm]
    · simp [dumpfn, hres, hm]
  · intro hy
    constructor
    · intro fmt h
      exact loadfn_yaml_runtime_reachable env c fs fn fmt kwargs hy h
    · intro fmt h
      exact dumpfn_yaml_runtime_reachable env c fs obj fn fmt kwargs hy h

/-- Witness for C4: msgpack unavailable at "x.mpk" fails with an empty
trace, and in a reachable environment the yaml unavailable-codec error
does not occur. -/
theorem c4_unavailable_codec_witness :
    loadfn envNoMpk toyCodecs [] "x.mpk" none [] =
      ([], .error (.runtimeError mpkUnavailableMsg)) ∧
    ¬(loadfn env0 toyCodecs [] "x.yaml" none []).2 =
      .error (.runtimeError yamlUnavailableMsg) :=
  ⟨((c4_unavailable_codec envNoMpk toyCodecs [] d0 "x.mpk" []).1 none
      (by decide) (by decide)).1,
   ((c4_unavailable_codec env0 toyCodecs [] d0 "x.yaml" []).2 rfl).1 none⟩

/-- A dump of `d` at `fn` followed by a load of `fn`, both without an
explicit format, returns `d`. -/
def roundTrip (env : Env) (c : Codecs) (fs : FS) (d : Value) (fn : String) : Prop :=
  (loadfn env c (dumpfn env c fs d fn none []).2.2 fn none []).2 = .ok d

/-- Claim C2: whenever the json codec and the yaml codec invert their
own encodings of `d` under the options the dispatcher forwards, load
after dump returns `d` for every path resolving to the json or yaml tag
— in particular for every supported (format, compression) extension:
json, yaml, yml, json.gz, yaml.gz, json.bz2, yaml.bz2 (the Stream
Provider makes compression transparent, so the content read back is the
content written). -/
theorem c2_round_trip (env : Env) (c : Codecs) (fs : FS) (d : Value)
    (hyavail : env.yamlAvailable = true)
    (hj : c.jsonLoads [("cls", Hook.montyDecoder)]
        (c.jsonDumps [("cls", Hook.montyEncoder)] d) = some d)
    (hy : c.yamlLoad [] (c.yamlDump [] d) = some d) :
    (∀ fn : String, identify_format fn = "json" → roundTrip env c fs d fn) ∧
    (∀ fn : String, identify_format fn = "yaml" → roundTrip env c fs d fn) ∧
    roundTrip env c fs d "monte_test.json" ∧
    roundTrip env c fs d "monte_test.yaml" ∧
    roundTrip env c fs d "monte_test.yml" ∧
    roundTrip env c fs d "monte_test.json.gz" ∧
    roundTrip env c fs d "monte_test.yaml.gz" ∧
    roundTrip env c fs d "monte_test.json.bz2" ∧
    roundTrip env c fs d "monte_test.yaml.bz2" := by
  have hjson : ∀ fn : String, identify_format fn = "json" →
      roundTrip env c fs d fn := by
    intro fn hf
    simp [roundTrip, dumpfn, loadfn, resolveFmt, hf, injectDefault, List.lookup,
      FS.read_put, hj]
  have hyaml : ∀ fn : String, identify_format fn = "yaml" →
      roundTrip env c fs d fn := by
    intro fn hf
    simp [roundTrip, dumpfn, loadfn, resolveFmt, hf, hyavail, FS.read_put, hy]
  exact ⟨hjson, hyaml, hjson _ (by decide), hyaml _ (by decide),
    hyaml _ (by decide), hjson _ (by decide), hyaml _ (by decide),
    hjson _ (by decide), hyaml _ (by decide)⟩

/-- Witness for C2 with the concrete codecs at the test mapping. -/
theorem c2_round_trip_witness :
    toyCodecs.jsonLoads [("cls", Hook.montyDecoder)]
        (toyCodecs.jsonDumps [("cls", Hook.montyEncoder)] d0) = some d0 ∧
    toyCodecs.yamlLoad [] (toyCodecs.yamlDump [] d0) = some d0 ∧
    roundTrip env0 toyCodecs [] d0 "monte_test.yaml.gz" :=
  ⟨rfl, rfl,
   (c2_round_trip env0 toyCodecs [] d0 rfl rfl rfl).2.2.2.2.2.2.1⟩

/-- Claim C5: an explicit non-empty format tag is used as given and
filename detection is bypassed; without one the tag comes from the
Format Identifier.  In the concrete scenario, after dump(d, "x.json",
fmt="yaml"), a plain load("x.json") fails with the json codec's
malformed-content error, while load("x.json", fmt="yaml") returns d. -/
theorem c5_explicit_override (env : Env) (c : Codecs) (fs : FS) (d : Value)
    (hyavail : env.yamlAvailable = true)
    (hmal : c.jsonLoads [("cls", Hook.montyDecoder)] (c.yamlDump [] d) = none)
    (hy : c.yamlLoad [] (c.yamlDump [] d) = some d) :
    (∀ (fn s : String), ¬s = "" → resolveFmt (some s) fn = s) ∧
    (∀ fn : String, resolveFmt none fn = identify_format fn) ∧
    (loadfn env c (dumpfn env c fs d "x.json" (some "yaml") []).2.2
        "x.json" none []).2 = .error .jsonDecodeError ∧
    (loadfn env c (dumpfn env c fs d "x.json" (some "yaml") []).2.2
        "x.json" (some "yaml") []).2 = .ok d := by
  have hfx : identify_format "x.json" = "json" := by decide
  refine ⟨fun fn s hs => resolveFmt_some s fn hs, fun _ => rfl, ?_, ?_⟩
  · simp [dumpfn, loadfn, resolveFmt, hfx, hyavail, injectDefault, List.lookup,
      FS.read_put, hmal]
  · simp [dumpfn, loadfn, resolveFmt, hfx, hyavail, FS.read_put, hy]

/-- Witness for C5 with the concrete codecs at the test mapping: the
yaml-encoded content is rejected by the json decoder and accepted by the
yaml decoder. -/
theorem c5_explicit_override_witness :
    toyCodecs.jsonLoads [("cls", Hook.montyDecoder)] (toyCodecs.yamlDump [] d0) =
      none ∧
    (loadfn env0 toyCodecs (dumpfn env0 toyCodecs [] d0 "x.json" (some "yaml") []).2.2
        "x.json" (some "yaml") []).2 = .ok d0 :=
  ⟨rfl, (c5_explicit_override env0 toyCodecs [] d0 rfl rfl rfl).2.2.2⟩

/-- Claim C6: the system defaults (decode hook/class for binary-map and
JSON-family reads, encode default/class for binary-map and JSON-family
writes) are injected only when the caller supplied no value under the
same option name; a caller-supplied value is forwarded verbatim and the
other options are untouched.  Each dispatcher path behaves exactly as
its codec applied to the kwargs with that single injection. -/
theorem c6_default_injection (kwargs : Kwargs) (key : String)
    (dflt suppl : Hook) :
    (kwargs.lookup key = some suppl → injectDefault kwargs key dflt = kwargs) ∧
    (kwargs.lookup key = none →
      (injectDefault kwargs key dflt).lookup key = some dflt ∧
      ∀ k, ¬k = key →
        (injectDefault kwargs key dflt).lookup k = kwargs.lookup k) ∧
    (∀ (env : Env) (c : Codecs) (fs : FS) (fn content : String),
      fs.read fn = some content →
      (loadfn env c fs fn (some "json") kwargs).2 =
        (match c.jsonLoads (injectDefault kwargs "cls" Hook.montyDecoder) content with
          | some v => .ok v
          | none => .error Err.jsonDecodeError)) ∧
    (∀ (env : Env) (c : Codecs) (fs : FS) (fn content : String),
      env.msgpackAvailable = true → fs.read fn = some content →
      (loadfn env c fs fn (some "mpk") kwargs).2 =
        (match c.mpkLoad (injectDefault kwargs "object_hook" Hook.msgpackObjectHook)
            content with
          | some v => .ok v
          | none => .error Err.mpkDecodeError)) ∧
    (∀ (env : Env) (c : Codecs) (fs : FS) (fn : String) (obj : Value),
      ((dumpfn env c fs obj fn (some "json") kwargs).2.2).read fn =
        some (c.jsonDumps (injectDefault kwargs "cls" Hook.montyEncoder) obj)) ∧
    (∀ (env : Env) (c : Codecs) (fs : FS) (fn : String) (obj : Value),
      env.msgpackAvailable = true →
      ((dumpfn env c fs obj fn (some "mpk") kwargs).2.2).read fn =
        some (c.mpkDump (injectDefault kwargs "default" Hook.msgpackDefault) obj)) := by
  refine ⟨?_, ?_, ?_, ?_, ?_, ?_⟩
  · intro h
    simp [injectDefault, h]
  · intro h
    constructor
    · simp [injectDefault, h, List.lookup]
    · intro k hk
      have hb : (k == key) = false := beq_eq_false_iff_ne.mpr hk
      simp [injectDefault, h, List.lookup, hb]
  · intro env c fs fn content hc
    simp only [loadfn, resolveFmt]
    simp [hc]
    cases c.jsonLoads (injectDefault kwargs "cls" Hook.montyDecoder) content <;> rfl
  · intro env c fs fn content hm hc
    simp only [loadfn, resolveFmt]
    simp [hm, hc]
    cases c.mpkLoad (injectDefault kwargs "object_hook" Hook.msgpackObjectHook)
      content <;> rfl
  · intro env c fs fn obj
    simp only [dumpfn, resolveFmt]
    simp [FS.read_put]
  · intro env c fs fn obj hm
    simp only [dumpfn, resolveFmt]
    simp [hm, FS.read_put]

/-- Witness for C6: a caller-supplied "cls" survives verbatim, no
default is applied, and the json load still uses it. -/
theorem c6_default_injection_witness :
    injectDefault [("cls", Hook.custom 7)] "cls" Hook.montyDecoder =
      [("cls", Hook.custom 7)] ∧
    (loadfn env0 toyCodecs [("x.json", "JPD0")] "x.json" (some "json")
        [("cls", Hook.custom 7)]).2 =
      (match toyCodecs.jsonLoads
          (injectDefault [("cls", Hook.custom 7)] "cls" Hook.montyDecoder)
          "JPD0" with
        | some v => .ok v
        | none => .error Err.jsonDecodeError) :=
  ⟨(c6_default_injection [("cls", Hook.custom 7)] "cls" Hook.montyDecoder
      (Hook.custom 7)).1 (by decide),
   (c6_default_injection [("cls", Hook.custom 7)] "cls" Hook.montyDecoder
      (Hook.custom 7)).2.2.1 env0 toyCodecs [("x.json", "JPD0")] "x.json" "JPD0" rfl⟩

/-- Claim C7: dumping a list of entries in JSON-Lines mode performs one
write per entry, in order, each the entry's encoding followed by one
newline; when no encoding contains a newline the written file has
exactly one line per entry — `entries.length` physical lines, no
trailing blank line. -/
theorem c7_jsonl_dump (env : Env) (c : Codecs) (fs : FS) (fn : String)
    (kwargs : Kwargs) (entries : List Value)
    (hnl : ∀ e ∈ entries,
      '\n' ∉ (c.jsonDumps (injectDefault kwargs "cls" Hook.montyEncoder) e).data) :
    dumpfn env c fs (.list entries) fn (some "jsonl") kwargs =
      ([Event.openFile fn Mode.wt] ++
        (entries.map fun e => Event.writeCall
          (c.jsonDumps (injectDefault kwargs "cls" Hook.montyEncoder) e ++ "\n")) ++
        [Event.closeFile fn],
       .ok (),
       fs.put fn (joinAll (entries.map fun e =>
         c.jsonDumps (injectDefault kwargs "cls" Hook.montyEncoder) e ++ "\n"))) ∧
    pyLines (joinAll (entries.map fun e =>
        c.jsonDumps (injectDefault kwargs "cls" Hook.montyEncoder) e ++ "\n")) =
      entries.map (fun e =>
        c.jsonDumps (injectDefault kwargs "cls" Hook.montyEncoder) e ++ "\n") ∧
    (pyLines (joinAll (entries.map fun e =>
        c.jsonDumps (injectDefault kwargs "cls" Hook.montyEncoder) e ++ "\n"))).length =
      entries.length := by
  have hlines : pyLines (joinAll (entries.map fun e =>
      c.jsonDumps (injectDefault kwargs "cls" Hook.montyEncoder) e ++ "\n")) =
      entries.map (fun e =>
        c.jsonDumps (injectDefault kwargs "cls" Hook.montyEncoder) e ++ "\n") := by
    have := pyLines_joinAll
      (entries.map (c.jsonDumps (injectDefault kwargs "cls" Hook.montyEncoder)))
      (by
        intro s hs
        obtain ⟨e, he, rfl⟩ := List.mem_map.mp hs
        exact hnl e he)
    simpa [List.map_map, Function.comp] using this
  refine ⟨?_, hlines, by simp [hlines]⟩
  simp [dumpfn, resolveFmt, pyIter]

/-- Witness for C7 with two concrete entries. -/
theorem c7_jsonl_dump_witness :
    (∀ e ∈ [Value.nat 0, Value.nat 1],
      '\n' ∉ (toyCodecs.jsonDumps
        (injectDefault [] "cls" Hook.montyEncoder) e).data) ∧
    (pyLines (joinAll ([Value.nat 0, Value.nat 1].map fun e =>
        toyCodecs.jsonDumps (injectDefault [] "cls" Hook.montyEncoder) e ++ "\n"))).length =
      2 :=
  ⟨by decide,
   (c7_jsonl_dump env0 toyCodecs [] "x.jsonl" [] [Value.nat 0, Value.nat 1]
      (by decide)).2.2⟩

/-- Claim C8: loading in JSON-Lines mode decodes each line the stream's
line iterator yields as one JSON value and returns them in order — when
every line decodes, the result is the ordered sequence of exactly one
decoded value per line. -/
theorem c8_jsonl_load (env : Env) (c : Codecs) (fs : FS) (fn content : String)
    (kwargs : Kwargs) (vs : List Value)
    (hread : fs.read fn = some content)
    (hdec : mapDecode (c.jsonLoads (injectDefault kwargs "cls" Hook.montyDecoder))
        (pyLines content) = some vs) :
    (loadfn env c fs fn (some "jsonl") kwargs).2 = .ok (.list vs) ∧
    vs.length = (pyLines content).length ∧
    ∀ i (hx : i < (pyLines content).length) (hy : i < vs.length),
      c.jsonLoads (injectDefault kwargs "cls" Hook.montyDecoder)
          ((pyLines content).get ⟨i, hx⟩) = some (vs.get ⟨i, hy⟩) := by
  obtain ⟨hlen, hget⟩ := mapDecode_spec _ (pyLines content) vs hdec
  refine ⟨?_, hlen, hget⟩
  simp only [loadfn, resolveFmt]
  simp [hread, hdec]

/-- Witness for C8 on a two-line stream. -/
theorem c8_jsonl_load_witness :
    FS.read [("x.jsonl", "JPN0\nJPN1\n")] "x.jsonl" = some "JPN0\nJPN1\n" ∧
    mapDecode (toyCodecs.jsonLoads (injectDefault [] "cls" Hook.montyDecoder))
        (pyLines "JPN0\nJPN1\n") = some [Value.nat 0, Value.nat 1] ∧
    (loadfn env0 toyCodecs [("x.jsonl", "JPN0\nJPN1\n")] "x.jsonl" (some "jsonl") []).2 =
      .ok (.list [Value.nat 0, Value.nat 1]) :=
  ⟨rfl, rfl,
   (c8_jsonl_load env0 toyCodecs [("x.jsonl", "JPN0\nJPN1\n")] "x.jsonl"
      "JPN0\nJPN1\n" [] [Value.nat 0, Value.nat 1] rfl rfl).1⟩

theorem loadfn_typeError_cases (env : Env) (c : Codecs) (fs : FS)
    (fn : String) (fmt : Option String) (kwargs : Kwargs) (m : String)
    (h : (loadfn env c fs fn fmt kwargs).2 = .error (.typeError m)) :
    ¬resolveFmt fmt fn = "mpk" ∧ ¬resolveFmt fmt fn = "yaml" ∧
    ¬resolveFmt fmt fn = "json" ∧ ¬resolveFmt fmt fn = "jsonl" := by
  simp only [loadfn] at h
  repeat' split at h
  all_goals simp_all

theorem dumpfn_typeError_cases (env : Env) (c : Codecs) (fs : FS) (obj : Value)
    (fn : String) (fmt : Option String) (kwargs : Kwargs) (m : String)
    (h : (dumpfn env c fs obj fn fmt kwargs).2.1 = .error (.typeError m)) :
    (¬resolveFmt fmt fn = "mpk" ∧ ¬resolveFmt fmt fn = "yaml" ∧
      ¬resolveFmt fmt fn = "json" ∧ ¬resolveFmt fmt fn = "jsonl") ∨
    m = "object is not iterable" := by
  by_cases h1 : resolveFmt fmt fn = "mpk"
  · exfalso
    simp only [dumpfn, h1] at h
    cases hA : env.msgpackAvailable <;> simp [hA] at h
  by_cases h2 : resolveFmt fmt fn = "yaml"
  · exfalso
    simp only [dumpfn, h1, h2] at h
    cases hA : env.yamlAvailable <;> simp [hA] at h
  by_cases h3 : resolveFmt fmt fn = "json"
  · exfalso
    simp [dumpfn, h1, h2, h3] at h
  by_cases h4 : resolveFmt fmt fn = "jsonl"
  · right
    simp only [dumpfn, h1, h2, h4] at h
    simp at h
    cases hp : pyIter obj with
    | ok entries => rw [hp] at h; simp at h
    | error e =>
      rw [hp] at h
      simp at h
      have := pyIter_error obj e hp
      rw [this] at h
      exact (Err.typeError.injEq _ _).mp h.symm
  · exact .inl ⟨h1, h2, h3, h4⟩

/-- Claim C10: an explicitly supplied but falsy (empty-string) format
tag is treated exactly as if no format were supplied: the tag is
silently re-derived from the filename, the call behaves identically to
the no-override call, and no invalid-format error is raised. -/
theorem c10_falsy_format (env : Env) (c : Codecs) (fs : FS) (obj : Value)
    (fn : String) (kwargs : Kwargs) :
    loadfn env c fs fn (some "") kwargs = loadfn env c fs fn none kwargs ∧
    dumpfn env c fs obj fn (some "") kwargs =
      dumpfn env c fs obj fn none kwargs ∧
    resolveFmt (some "") fn = identify_format fn ∧
    (∀ m, ¬(loadfn env c fs fn (some "") kwargs).2 = .error (.typeError m)) ∧
    (∀ m, (dumpfn env c fs obj fn (some "") kwargs).2.1 =
        .error (.typeError m) →
      isInvalidFormatError (.typeError m) = false) := by
  have hr : resolveFmt (some "") fn = resolveFmt none fn := by simp [resolveFmt]
  have hr' : resolveFmt (some "") fn = identify_format fn := by simp [resolveFmt]
  have hl : loadfn env c fs fn (some "") kwargs =
      loadfn env c fs fn none kwargs := by
    simp only [loadfn, hr]
  have hd : dumpfn env c fs obj fn (some "") kwargs =
      dumpfn env c fs obj fn none kwargs := by
    simp only [dumpfn, hr]
  refine ⟨hl, hd, hr', ?_, ?_⟩
  · intro m hm
    obtain ⟨m1, m2, m3, m4⟩ :=
      loadfn_typeError_cases env c fs fn (some "") kwargs m hm
    rcases identify_format_cases fn with h | h | h | h <;> simp_all
  · intro m hm
    rcases dumpfn_typeError_cases env c fs obj fn (some "") kwargs m hm with
      ⟨m1, m2, m3, m4⟩ | hmsg
    · exfalso
      rcases identify_format_cases fn with h | h | h | h <;> simp_all
    · rw [hmsg]
      decide

/-- Witness for C10 at "x.json": the empty-string override call is the
same call as the no-override one. -/
theorem c10_falsy_format_witness :
    loadfn env0 toyCodecs [] "x.json" (some "") [] =
      loadfn env0 toyCodecs [] "x.json" none [] :=
  (c10_falsy_format env0 toyCodecs [] d0 "x.json" []).1

end Monty
